import Mathlib

set_option autoImplicit false

/-
Verification of the dylan-assistant agent service against its specification.

The definitions below are a shallow embedding of the Python sources:
  * src/api/main.py        — ChatRequest validation, chat endpoint, stream_chat_response
  * src/workflows/assistant.py — agent_node / tools_node / should_continue loop,
                                 AssistantWorkflow.run and get_response
  * src/core/state.py      — AgentState (messages channel with the add_messages reducer)
  * src/core/config.py     — settings (max_iterations default)
  * src/tools/base.py      — calculate and the native tool registry

External collaborators (the LLM gateway, langgraph's event plumbing, the
add_messages reducer of langchain) are modeled at their interface: the model's
responses are an oracle parameter, and add_messages is embedded from its
documented contract (append messages with fresh ids, replace on id match).
-/

namespace DylanAssistant

/-! ## Internal event chunks and external SSE events

AssistantWorkflow.run (src/workflows/assistant.py, lines 229-277) yields chunk
dicts of type token / tool_start / tool_end / node_complete, and, when the
graph raises, a single final error chunk from the except branch, after which
the generator ends. -/

/-- Internal chunks yielded by AssistantWorkflow.run. -/
inductive Chunk where
  | token (content : String)
  | toolStart (tool : String) (args : String)
  | toolEnd (tool : String) (result : String)
  | nodeComplete
  | error (msg : String)
deriving DecidableEq

/-- True exactly on the error chunk. -/
def Chunk.isError : Chunk → Bool
  | Chunk.error _ => true
  | _ => false

/-- External SSE events produced by stream_chat_response (src/api/main.py,
lines 144-218). -/
inductive SseEvent where
  | token (content accumulated : String)
  | toolStart (tool : String) (args : String)
  | toolEnd (tool : String) (result : String)
  | error (msg : String)
  | done (message sessionId : String)
deriving DecidableEq

/-- True exactly on the two terminal event kinds (done and error). -/
def SseEvent.isTerminal : SseEvent → Bool
  | SseEvent.error _ => true
  | SseEvent.done _ _ => true
  | _ => false

/-- The async-for body of stream_chat_response plus the trailing done yield.
`buffer` is the running concatenation of the token contents seen so far (the
code keeps a list and joins it; appending to one string is the same join).
A token chunk is forwarded together with the accumulated join; tool_start and
tool_end chunks are forwarded; a node_complete chunk has no branch and is
skipped; an error chunk is forwarded and the loop breaks — and control then
falls through to the unconditional done yield after the loop. -/
def streamLoop (sessionId : String) (buffer : String) : List Chunk → List SseEvent
  | [] => [SseEvent.done buffer sessionId]
  | Chunk.token c :: rest =>
      SseEvent.token c (buffer ++ c) :: streamLoop sessionId (buffer ++ c) rest
  | Chunk.toolStart t a :: rest =>
      SseEvent.toolStart t a :: streamLoop sessionId buffer rest
  | Chunk.toolEnd t r :: rest =>
      SseEvent.toolEnd t r :: streamLoop sessionId buffer rest
  | Chunk.nodeComplete :: rest => streamLoop sessionId buffer rest
  | Chunk.error m :: _ =>
      [SseEvent.error m, SseEvent.done buffer sessionId]

/-- stream_chat_response (src/api/main.py, lines 144-218) on the chunk stream
produced by one call of AssistantWorkflow.run. -/
def stream_chat_response (chunks : List Chunk) (sessionId : String) : List SseEvent :=
  streamLoop sessionId "" chunks

/-- get_response (src/workflows/assistant.py, lines 279-300): consume the same
run stream and return the concatenation of the content of every token chunk
(the code collects the contents in a list and joins them). -/
def get_response : List Chunk → String
  | [] => ""
  | Chunk.token s :: rest => s ++ get_response rest
  | _ :: rest => get_response rest

/-- Messages carried by the done events of an external event list. -/
def doneMessages (events : List SseEvent) : List String :=
  events.filterMap fun e =>
    match e with
    | SseEvent.done m _ => some m
    | _ => none

/-- Concatenation of the token content of the final model step only, written
from the spec's words for the done payload (section 4.1 rule 5): the tokens
emitted after the last tool_end chunk of the turn. Used only to compare the
spec's description with the source's behaviour. -/
def finalModelStepConcat (chunks : List Chunk) : String :=
  get_response (chunks.foldl (fun acc c =>
    match c with
    | Chunk.toolEnd _ _ => []
    | _ => acc ++ [c]) [])

/-! ## Request validation (src/api/main.py, lines 64-76 and 121-122) -/

/-- Whitespace removed by Python str.strip: space, tab, newline, carriage
return, vertical tab and form feed (the unicode whitespace Python also strips
is not modeled). -/
def isStripSpace (c : Char) : Bool :=
  c == ' ' || c == '\t' || c == '\n' || c == '\r' || c == '\x0b' || c == '\x0c'

/-- Python str.strip(): drop leading and trailing whitespace. -/
def pyStrip (s : String) : String :=
  String.mk (((s.data.dropWhile isStripSpace).reverse.dropWhile isStripSpace).reverse)

/-- ChatRequest message validation: the pydantic field constraints
min_length 1 and max_length 8000 run first, then the field validator rejects
a message that is empty or whitespace-only after strip, and the stored value
is the stripped message. Returns none where the request is rejected with 422
before the chat handler (and hence the loop) runs. -/
def validateChatMessage (s : String) : Option String :=
  if s.length < 1 then none
  else if s.length > 8000 then none
  else if pyStrip s = "" then none
  else some (pyStrip s)

/-- Session id resolution in the chat handler (src/api/main.py, line 122):
`request.session_id or str(uuid.uuid4())` — a missing (or falsy empty) session
id is replaced by the freshly generated one. -/
def resolveSessionId (requested : Option String) (generated : String) : String :=
  match requested with
  | none => generated
  | some s => if s = "" then generated else s

/-! ## Tool dispatch (src/workflows/assistant.py, lines 82-130 and 187-193) -/

/-- A tool call requested by the model: name, argument payload, call id. -/
structure ToolCall where
  name : String
  args : String
  id : String
deriving DecidableEq

/-- Outcome of awaiting tool.ainvoke inside tools_node: a result value, or one
of the three exception classes caught there (TimeoutError, ValueError, and the
catch-all Exception). -/
inductive ToolOutcome where
  | ok (result : String)
  | timeoutError (msg : String)
  | valueError (msg : String)
  | otherError (msg : String)
deriving DecidableEq

/-- A registry entry: tool name plus its invocation behaviour. The individual
tool implementations are external collaborators; the behaviour is a parameter
except where a claim pins it (the calculator below). -/
structure ToolSpec where
  name : String
  invoke : String → ToolOutcome

/-- AssistantWorkflow._find_tool (lines 187-193): scan the merged tool list and
return the first tool whose name matches, or none. -/
def find_tool (tools : List ToolSpec) (toolName : String) : Option ToolSpec :=
  tools.find? fun t => t.name == toolName

/-- A ToolMessage appended to history by tools_node: content plus the
tool_call_id it answers. -/
structure ToolMsg where
  content : String
  tool_call_id : String
deriving DecidableEq

/-- tools_node (lines 82-130): iterate over the tool calls of the last AI
message in order; look each name up with _find_tool; when the tool is found,
await it and append exactly one ToolMessage — the stringified result on
success, or the fixed timeout text, the "Invalid input: " text, or the
"Tool error: " text for the three caught exception classes. When the tool is
NOT found, the `if tool:` guard has no else branch and nothing is appended. -/
def tools_node (tools : List ToolSpec) (tool_calls : List ToolCall) : List ToolMsg :=
  List.flatten (tool_calls.map fun call =>
    match find_tool tools call.name with
    | none => []
    | some t =>
      match t.invoke call.args with
      | ToolOutcome.ok r => [⟨r, call.id⟩]
      | ToolOutcome.timeoutError _ =>
          [⟨"Tool execution timed out. Please try again.", call.id⟩]
      | ToolOutcome.valueError m => [⟨"Invalid input: " ++ m, call.id⟩]
      | ToolOutcome.otherError m => [⟨"Tool error: " ++ m, call.id⟩])

/-- Dispatch events observable on the external stream (tool_start on dispatch,
tool_end on completion of the same invocation). -/
inductive ToolEvent where
  | start (tool : String)
  | finish (tool : String)
deriving DecidableEq

/-- Event trace of tools_node: the body is a plain for loop whose single await
runs each tool to completion before the next iteration begins, so each found
call contributes its start event immediately followed by its own end event;
calls whose name is not found are never invoked and contribute no events. -/
def tools_node_trace (tools : List ToolSpec) (tool_calls : List ToolCall) : List ToolEvent :=
  List.flatten (tool_calls.map fun call =>
    match find_tool tools call.name with
    | none => []
    | some _ => [ToolEvent.start call.name, ToolEvent.finish call.name])

/-- Dispatch trace described by the spec's words (sections 4.1 rule 3 and 5):
all ToolCallRequests of one model response are dispatched concurrently, each
emitting its tool_start immediately on dispatch — hence before any completion
is awaited at the barrier — with the tool_end events following as completions
arrive. Written from the spec only, to be compared with the trace of the
source. -/
def specParallelDispatchTrace (tools : List ToolSpec) (tool_calls : List ToolCall) : List ToolEvent :=
  (tool_calls.filter fun call => (find_tool tools call.name).isSome).map
      (fun call => ToolEvent.start call.name)
    ++ (tool_calls.filter fun call => (find_tool tools call.name).isSome).map
      (fun call => ToolEvent.finish call.name)

/-- A trace is sequential when it is a concatenation of immediately adjacent
start/finish pairs for one tool at a time: no second dispatch starts while an
earlier one is still running. -/
def sequentialTrace : List ToolEvent → Bool
  | [] => true
  | ToolEvent.start t :: ToolEvent.finish u :: rest => t == u && sequentialTrace rest
  | _ => false

/-! ## The agent loop (src/workflows/assistant.py, lines 54-166) -/

/-- One model response: final content plus the requested tool calls. -/
structure ModelResponse where
  content : String
  tool_calls : List ToolCall

/-- Routing decision returned by should_continue. -/
inductive Route where
  | tools
  | endRun
deriving DecidableEq

/-- should_continue (lines 132-145): the max-steps check comes first and wins
even when the last message carries tool calls; otherwise route to tools
exactly when the last message has a non-empty tool_calls list. -/
def should_continue (current_step max_steps : Nat) (last_tool_calls : List ToolCall) : Route :=
  if current_step ≥ max_steps then Route.endRun
  else if last_tool_calls ≠ [] then Route.tools
  else Route.endRun

/-- Number of agent (model) steps the compiled graph executes in one turn.
The entry point is the agent node, which increments current_step (from 0 in
the initial state, run lines 212-223); should_continue then either ends the
turn or routes through the tools node, whose only outgoing edge returns to the
agent node. The model gateway is an oracle giving the response of the k-th
model step. -/
def agentLoop (oracle : Nat → ModelResponse) (max_steps : Nat) (current : Nat) : Nat :=
  match h : should_continue (current + 1) max_steps (oracle current).tool_calls with
  | Route.tools => 1 + agentLoop oracle max_steps (current + 1)
  | Route.endRun => 1
termination_by max_steps - current
decreasing_by
  unfold should_continue at h
  split at h
  · exact absurd h (by simp)
  · omega

/-- Model steps of a whole turn: the loop entered with current_step = 0. -/
def loopModelSteps (oracle : Nat → ModelResponse) (max_steps : Nat) : Nat :=
  agentLoop oracle max_steps 0

/-- settings.max_iterations default (src/core/config.py, line 85), passed to
the initial state as max_steps (src/workflows/assistant.py, line 216). -/
def max_iterations_default : Nat := 10

/-! ## Session history (src/core/state.py and src/workflows/assistant.py run) -/

/-- Message kinds of the history (system / human / ai / tool-result). -/
inductive MsgKind where
  | system
  | human
  | ai
  | tool
deriving DecidableEq

/-- A history entry: id, kind and content. -/
structure Msg where
  id : String
  kind : MsgKind
  content : String
deriving DecidableEq

/-- One step of the add_messages reducer declared on AgentState.messages
(src/core/state.py, line 19; the reducer is the langgraph library function,
embedded from its interface contract): an incoming message whose id already
occurs replaces that entry in place, otherwise it is appended. -/
def addOneMessage (history : List Msg) (m : Msg) : List Msg :=
  if history.any (fun x => x.id == m.id) then
    history.map fun x => if x.id == m.id then m else x
  else
    history ++ [m]

/-- add_messages on a batch of updates, applied left to right. -/
def add_messages (history updates : List Msg) : List Msg :=
  updates.foldl addOneMessage history

/-- History evolution of one turn of AssistantWorkflow.run (lines 195-235):
the checkpointer restores the session history for the thread, the input state
contributes the new human message, and then every node update (the agent
node's AI message, the tools node's ToolMessage batch, ...) is merged through
the add_messages reducer in execution order. -/
def turnHistory (prior : List Msg) (humanMsg : Msg) (nodeUpdates : List (List Msg)) : List Msg :=
  nodeUpdates.foldl add_messages (add_messages prior [humanMsg])

/-! ## Calculator (src/tools/base.py, lines 112-156)

calculate parses the input with ast.parse in eval mode and evaluates the tree
with a six-entry operator table. The embedding below implements the arithmetic
fragment of the Python expression grammar reachable by that evaluator:
integer and decimal literals, identifiers (True / False / None become
constants, every other identifier a Name node), the binary operators
+ - * / % // **, unary + and -, and parentheses. Inputs outside this fragment
(strings, calls, comparisons, unknown characters, ...) are modeled as parse
failures; in Python they parse to nodes that eval_expr rejects, so both sides
produce the same observable "Error calculating:" result. Scientific-notation
and underscore-separated literals are not modeled. Python floats are modeled
as exact rationals. -/

/-- Tokens of the arithmetic fragment. -/
inductive Tok where
  | intLit (n : Nat)
  | floatLit (num scale : Nat)
  | ident (s : String)
  | plus
  | minus
  | star
  | slash
  | dstar
  | percent
  | dslash
  | lparen
  | rparen
deriving DecidableEq

/-- Value of a run of decimal digit characters. -/
def digitsToNat (ds : List Char) : Nat :=
  ds.foldl (fun a c => a * 10 + (c.toNat - 48)) 0

/-- Whitespace accepted between tokens by the Python lexer. -/
def isSpaceChar (c : Char) : Bool :=
  c == ' ' || c == '\t' || c == '\n' || c == '\r'

/-- Tokenizer. The fuel argument only bounds recursion; every step consumes at
least one character, so fuel = length + 1 never runs out. -/
def tokenizeAux : Nat → List Char → Option (List Tok)
  | 0, _ => none
  | _, [] => some []
  | fuel + 1, c :: rest =>
    if isSpaceChar c then tokenizeAux fuel rest
    else if c.isDigit || c == '.' then
      let intDs := (c :: rest).takeWhile Char.isDigit
      let afterInt := (c :: rest).drop intDs.length
      match afterInt with
      | '.' :: rest2 =>
        let fracDs := rest2.takeWhile Char.isDigit
        if intDs.isEmpty && fracDs.isEmpty then none
        else
          match tokenizeAux fuel (rest2.drop fracDs.length) with
          | none => none
          | some toks =>
              some (Tok.floatLit (digitsToNat (intDs ++ fracDs)) fracDs.length :: toks)
      | _ =>
        match tokenizeAux fuel afterInt with
        | none => none
        | some toks => some (Tok.intLit (digitsToNat intDs) :: toks)
    else if c.isAlpha || c == '_' then
      let idChars := (c :: rest).takeWhile fun x => x.isAlphanum || x == '_'
      match tokenizeAux fuel ((c :: rest).drop idChars.length) with
      | none => none
      | some toks => some (Tok.ident (String.mk idChars) :: toks)
    else if c == '*' then
      match rest with
      | '*' :: rest2 => Option.map (Tok.dstar :: ·) (tokenizeAux fuel rest2)
      | _ => Option.map (Tok.star :: ·) (tokenizeAux fuel rest)
    else if c == '/' then
      match rest with
      | '/' :: rest2 => Option.map (Tok.dslash :: ·) (tokenizeAux fuel rest2)
      | _ => Option.map (Tok.slash :: ·) (tokenizeAux fuel rest)
    else if c == '+' then Option.map (Tok.plus :: ·) (tokenizeAux fuel rest)
    else if c == '-' then Option.map (Tok.minus :: ·) (tokenizeAux fuel rest)
    else if c == '%' then Option.map (Tok.percent :: ·) (tokenizeAux fuel rest)
    else if c == '(' then Option.map (Tok.lparen :: ·) (tokenizeAux fuel rest)
    else if c == ')' then Option.map (Tok.rparen :: ·) (tokenizeAux fuel rest)
    else none

/-- Tokenize a whole input string. -/
def tokenize (s : String) : Option (List Tok) :=
  tokenizeAux (s.length + 1) s.data

/-- Binary operator nodes producible by this grammar (ast.Add, Sub, Mult, Div,
Pow, Mod, FloorDiv). The ops table of calculate contains the first five. -/
inductive PyOp where
  | add
  | sub
  | mult
  | div
  | pow
  | mod
  | floordiv
deriving DecidableEq

/-- Unary operator nodes (ast.USub, ast.UAdd). Only USub is in the ops table. -/
inductive PyUOp where
  | usub
  | uadd
deriving DecidableEq

/-- Constant nodes: int and float literals, the keyword constants True, False
and None. -/
inductive PyConst where
  | intC (n : Nat)
  | floatC (num scale : Nat)
  | boolC (b : Bool)
  | noneC
deriving DecidableEq

/-- The ast.Expression body shapes reachable from this fragment. -/
inductive PyExpr where
  | const (c : PyConst)
  | name (s : String)
  | binop (op : PyOp) (l r : PyExpr)
  | unaryop (op : PyUOp) (e : PyExpr)
deriving DecidableEq

mutual

/-- Expression parser: expr := term ((+|-) term)*. -/
def parseExpr (fuel : Nat) (toks : List Tok) : Option (PyExpr × List Tok) :=
  match fuel with
  | 0 => none
  | fuel + 1 =>
    match parseTerm fuel toks with
    | none => none
    | some (lhs, rest) => parseExprRest fuel lhs rest

/-- Left-associated continuation of expr. -/
def parseExprRest (fuel : Nat) (lhs : PyExpr) (toks : List Tok) : Option (PyExpr × List Tok) :=
  match fuel with
  | 0 => none
  | fuel + 1 =>
    match toks with
    | Tok.plus :: rest =>
      match parseTerm fuel rest with
      | none => none
      | some (rhs, rest2) => parseExprRest fuel (PyExpr.binop PyOp.add lhs rhs) rest2
    | Tok.minus :: rest =>
      match parseTerm fuel rest with
      | none => none
      | some (rhs, rest2) => parseExprRest fuel (PyExpr.binop PyOp.sub lhs rhs) rest2
    | _ => some (lhs, toks)

/-- term := factor ((*|/|%|//) factor)*. -/
def parseTerm (fuel : Nat) (toks : List Tok) : Option (PyExpr × List Tok) :=
  match fuel with
  | 0 => none
  | fuel + 1 =>
    match parseFactor fuel toks with
    | none => none
    | some (lhs, rest) => parseTermRest fuel lhs rest

/-- Left-associated continuation of term. -/
def parseTermRest (fuel : Nat) (lhs : PyExpr) (toks : List Tok) : Option (PyExpr × List Tok) :=
  match fuel with
  | 0 => none
  | fuel + 1 =>
    match toks with
    | Tok.star :: rest =>
      match parseFactor fuel rest with
      | none => none
      | some (rhs, rest2) => parseTermRest fuel (PyExpr.binop PyOp.mult lhs rhs) rest2
    | Tok.slash :: rest =>
      match parseFactor fuel rest with
      | none => none
      | some (rhs, rest2) => parseTermRest fuel (PyExpr.binop PyOp.div lhs rhs) rest2
    | Tok.percent :: rest =>
      match parseFactor fuel rest with
      | none => none
      | some (rhs, rest2) => parseTermRest fuel (PyExpr.binop PyOp.mod lhs rhs) rest2
    | Tok.dslash :: rest =>
      match parseFactor fuel rest with
      | none => none
      | some (rhs, rest2) => parseTermRest fuel (PyExpr.binop PyOp.floordiv lhs rhs) rest2
    | _ => some (lhs, toks)

/-- factor := (+|-) factor | power. Unary minus binds looser than ** on its
left, as in Python (-2 ** 2 is -(2 ** 2)). -/
def parseFactor (fuel : Nat) (toks : List Tok) : Option (PyExpr × List Tok) :=
  match fuel with
  | 0 => none
  | fuel + 1 =>
    match toks with
    | Tok.minus :: rest =>
      match parseFactor fuel rest with
      | none => none
      | some (e, rest2) => some (PyExpr.unaryop PyUOp.usub e, rest2)
    | Tok.plus :: rest =>
      match parseFactor fuel rest with
      | none => none
      | some (e, rest2) => some (PyExpr.unaryop PyUOp.uadd e, rest2)
    | _ => parsePower fuel toks

/-- power := atom (** factor)?, right associative with a possibly signed
exponent, as in Python. -/
def parsePower (fuel : Nat) (toks : List Tok) : Option (PyExpr × List Tok) :=
  match fuel with
  | 0 => none
  | fuel + 1 =>
    match parseAtom fuel toks with
    | none => none
    | some (base, rest) =>
      match rest with
      | Tok.dstar :: rest2 =>
        match parseFactor fuel rest2 with
        | none => none
        | some (e, rest3) => some (PyExpr.binop PyOp.pow base e, rest3)
      | _ => some (base, rest)

/-- atom := literal | identifier | ( expr ). -/
def parseAtom (fuel : Nat) (toks : List Tok) : Option (PyExpr × List Tok) :=
  match fuel with
  | 0 => none
  | fuel + 1 =>
    match toks with
    | Tok.intLit n :: rest => some (PyExpr.const (PyConst.intC n), rest)
    | Tok.floatLit m k :: rest => some (PyExpr.const (PyConst.floatC m k), rest)
    | Tok.ident s :: rest =>
      if s == "True" then some (PyExpr.const (PyConst.boolC true), rest)
      else if s == "False" then some (PyExpr.const (PyConst.boolC false), rest)
      else if s == "None" then some (PyExpr.const PyConst.noneC, rest)
      else some (PyExpr.name s, rest)
    | Tok.lparen :: rest =>
      match parseExpr fuel rest with
      | none => none
      | some (e, Tok.rparen :: rest2) => some (e, rest2)
      | some _ => none
    | _ => none

end

/-- ast.parse(expression, mode eval) on the arithmetic fragment: tokenize,
parse one expression, require all tokens consumed. The fuel bounds the
descent depth generously; exhausting it (only possible at extreme nesting,
where CPython itself raises a recursion error that calculate catches) is a
parse failure. -/
def py_parse (s : String) : Option PyExpr :=
  match tokenize s with
  | none => none
  | some toks =>
    match parseExpr (5 * toks.length + 5) toks with
    | some (e, []) => some e
    | _ => none

/-- Runtime values of eval_expr: Python ints, bools (a subclass of int, so they
pass the isinstance (int, float) check), and floats. Floats are modeled as
exact rationals; binary64 rounding is not modeled. -/
inductive PyVal where
  | intV (n : Int)
  | boolV (b : Bool)
  | floatV (q : Rat)
deriving DecidableEq

/-- Numeric value of a PyVal (bools count as 0 and 1, as in Python). -/
def PyVal.toRat : PyVal → Rat
  | PyVal.intV n => n
  | PyVal.boolV b => if b then 1 else 0
  | PyVal.floatV q => q

/-- The integer behind a value of Python type int (or bool); none for floats. -/
def PyVal.intValue? : PyVal → Option Int
  | PyVal.intV n => some n
  | PyVal.boolV b => some (if b then 1 else 0)
  | PyVal.floatV _ => none

/-- operator.add: int + int is an int (bools coerce to ints), anything
involving a float is a float. -/
def numAdd (a b : PyVal) : PyVal :=
  match a.intValue?, b.intValue? with
  | some x, some y => PyVal.intV (x + y)
  | _, _ => PyVal.floatV (a.toRat + b.toRat)

/-- operator.sub with the same int / float typing as numAdd. -/
def numSub (a b : PyVal) : PyVal :=
  match a.intValue?, b.intValue? with
  | some x, some y => PyVal.intV (x - y)
  | _, _ => PyVal.floatV (a.toRat - b.toRat)

/-- operator.mul with the same int / float typing as numAdd. -/
def numMul (a b : PyVal) : PyVal :=
  match a.intValue?, b.intValue? with
  | some x, some y => PyVal.intV (x * y)
  | _, _ => PyVal.floatV (a.toRat * b.toRat)

/-- operator.truediv: always a float; a zero divisor raises
ZeroDivisionError, which calculate catches. -/
def numDiv (a b : PyVal) : Except String PyVal :=
  if b.toRat = 0 then Except.error "division by zero"
  else Except.ok (PyVal.floatV (a.toRat / b.toRat))

/-- Exact power of a rational by an integer exponent; a zero base with a
negative exponent raises ZeroDivisionError in Python. -/
def ratPowInt (q : Rat) (e : Int) : Except String Rat :=
  if 0 ≤ e then Except.ok (q ^ e.toNat)
  else if q = 0 then Except.error "cannot be raised to a negative power"
  else Except.ok ((q ^ (-e).toNat)⁻¹)

/-- operator.pow: an int base with a non-negative int exponent gives an int;
an int base with a negative exponent gives a float; a float operand gives a
float. A float exponent whose value is not an integer makes Python compute an
inexact real (or complex) power with no exact rational value; that case is
modeled as an evaluation error and no claim relies on it. -/
def numPow (a b : PyVal) : Except String PyVal :=
  match a.intValue?, b.intValue? with
  | some x, some y =>
    if 0 ≤ y then Except.ok (PyVal.intV (x ^ y.toNat))
    else
      match ratPowInt (x : Rat) y with
      | Except.error e => Except.error e
      | Except.ok q => Except.ok (PyVal.floatV q)
  | _, _ =>
    if (b.toRat).den = 1 then
      match ratPowInt a.toRat (b.toRat).num with
      | Except.error e => Except.error e
      | Except.ok q => Except.ok (PyVal.floatV q)
    else Except.error "non-integral float exponent is outside this model"

/-- operator.neg: ints (and bools) negate to ints, floats to floats. -/
def numNeg (a : PyVal) : PyVal :=
  match a.intValue? with
  | some x => PyVal.intV (-x)
  | none => PyVal.floatV (-a.toRat)

/-- Value of a constant node under the isinstance (int, float) check of
eval_expr: int and float literals and bools pass; None does not and raises
TypeError. -/
def constVal : PyConst → Except String PyVal
  | PyConst.intC n => Except.ok (PyVal.intV n)
  | PyConst.floatC num scale => Except.ok (PyVal.floatV ((num : Rat) / (10 : Rat) ^ scale))
  | PyConst.boolC b => Except.ok (PyVal.boolV b)
  | PyConst.noneC => Except.error "Unsupported constant type NoneType"

/-- eval_expr (src/tools/base.py, lines 137-149): constants are returned when
they pass the isinstance check; every Name (and any other node kind) raises
TypeError; BinOp and UnaryOp look their operator up in the ops table first —
Mod, FloorDiv and UAdd are absent and raise KeyError — and then evaluate the
operands left to right. Exception messages are abbreviated; the claims rely
only on the "Error calculating:" prefix that calculate prepends. -/
def evalExpr : PyExpr → Except String PyVal
  | PyExpr.const c => constVal c
  | PyExpr.name s => Except.error ("Unsupported type Name " ++ s)
  | PyExpr.binop op l r =>
    match op with
    | PyOp.mod => Except.error "KeyError ast.Mod"
    | PyOp.floordiv => Except.error "KeyError ast.FloorDiv"
    | _ =>
      match evalExpr l with
      | Except.error e => Except.error e
      | Except.ok a =>
        match evalExpr r with
        | Except.error e => Except.error e
        | Except.ok b =>
          match op with
          | PyOp.add => Except.ok (numAdd a b)
          | PyOp.sub => Except.ok (numSub a b)
          | PyOp.mult => Except.ok (numMul a b)
          | PyOp.div => numDiv a b
          | PyOp.pow => numPow a b
          | PyOp.mod => Except.error "KeyError ast.Mod"
          | PyOp.floordiv => Except.error "KeyError ast.FloorDiv"
  | PyExpr.unaryop op e =>
    match op with
    | PyUOp.uadd => Except.error "KeyError ast.UAdd"
    | PyUOp.usub =>
      match evalExpr e with
      | Except.error msg => Except.error msg
      | Except.ok a => Except.ok (numNeg a)

/-- Least power of ten clearing the denominator of q, searched upward with
fuel. -/
def floatScaleAux (q : Rat) : Nat → Nat → Option Nat
  | k, 0 => if (q * (10 : Rat) ^ k).den = 1 then some k else none
  | k, fuel + 1 => if (q * (10 : Rat) ^ k).den = 1 then some k else floatScaleAux q (k + 1) fuel

/-- Left-pad a digit string with zeros up to the given length. -/
def padLeftZeros (s : String) (len : Nat) : String :=
  if s.length ≥ len then s else String.mk (List.replicate (len - s.length) '0') ++ s

/-- str of a Python float with a terminating decimal expansion: sign, integer
part, a dot, and at least one fractional digit (Python prints 5.0 as "5.0").
A non-terminating expansion falls back to a fraction rendering and Python's
switch to scientific notation at extreme magnitudes is not modeled; no claim
relies on either case. -/
def renderFloat (q : Rat) : String :=
  let sign := if q < 0 then "-" else ""
  let a := |q|
  match floatScaleAux a 0 600 with
  | none => sign ++ toString a.num ++ "/" ++ toString a.den
  | some 0 => sign ++ toString a.num ++ ".0"
  | some (k + 1) =>
    let digits := padLeftZeros (toString (a * (10 : Rat) ^ (k + 1)).num) (k + 2)
    let point := digits.length - (k + 1)
    sign ++ digits.take point ++ "." ++ digits.drop point

/-- str of the evaluation result, as interpolated by the f-string of
calculate. -/
def renderVal : PyVal → String
  | PyVal.intV n => toString n
  | PyVal.boolV b => if b then "True" else "False"
  | PyVal.floatV q => renderFloat q

/-- calculate (src/tools/base.py, lines 112-156): parse the expression in eval
mode, evaluate the tree with the six-operator table, and format the result as
"expression = result"; every exception along the way (syntax errors,
unsupported nodes or operators, division by zero) is caught by the enclosing
try and rendered as "Error calculating: " followed by the exception text. -/
def calculate (expression : String) : String :=
  match py_parse expression with
  | none => "Error calculating: invalid syntax"
  | some ast =>
    match evalExpr ast with
    | Except.error msg => "Error calculating: " ++ msg
    | Except.ok v => expression ++ " = " ++ renderVal v

/-- Syntactic constructs that eval_expr accepts: constants passing the
isinstance (int, float) check (int and float literals and bools), the five
binary operators present in the ops table, and unary negation. -/
def allowedConstructs : PyExpr → Bool
  | PyExpr.const (PyConst.intC _) => true
  | PyExpr.const (PyConst.floatC _ _) => true
  | PyExpr.const (PyConst.boolC _) => true
  | PyExpr.const PyConst.noneC => false
  | PyExpr.name _ => false
  | PyExpr.binop op l r =>
    (match op with
     | PyOp.mod => false
     | PyOp.floordiv => false
     | _ => true) && allowedConstructs l && allowedConstructs r
  | PyExpr.unaryop PyUOp.usub e => allowedConstructs e
  | PyExpr.unaryop PyUOp.uadd _ => false

/-! ## Concrete fixtures and observation helpers for the claims -/

/-- The native tool catalog names (get_all_tools, src/tools/base.py, lines
181-226): weather, search, current_time, calculator. Only the calculator's
behaviour is pinned by a claim; the other three wrap network services whose
outcome is a stand-in value — no theorem below ever invokes them. -/
def nativeTools : List ToolSpec :=
  [⟨"weather", fun _ => ToolOutcome.ok ""⟩,
   ⟨"search", fun _ => ToolOutcome.ok ""⟩,
   ⟨"current_time", fun _ => ToolOutcome.ok ""⟩,
   ⟨"calculator", fun e => ToolOutcome.ok (calculate e)⟩]

/-- A two-model-step turn: a token in the first model step, one tool round
trip, then a token in the final model step. -/
def c4Chunks : List Chunk :=
  [Chunk.token "a", Chunk.toolStart "calculator" "1 + 1",
   Chunk.toolEnd "calculator" "1 + 1 = 2", Chunk.token "b"]

/-- One model step requesting two resolvable tools. -/
def c7Calls : List ToolCall :=
  [⟨"weather", "Beijing", "id1"⟩, ⟨"calculator", "1 + 1", "id2"⟩]

/-- Tool names of the start events of a trace, in order. -/
def traceStarts (tr : List ToolEvent) : List String :=
  tr.filterMap fun e =>
    match e with
    | ToolEvent.start t => some t
    | _ => none

/-- Tool names of the end events of a trace, in order. -/
def traceFinishes (tr : List ToolEvent) : List String :=
  tr.filterMap fun e =>
    match e with
    | ToolEvent.finish t => some t
    | _ => none

/-- Names of the requested calls whose lookup in the registry succeeds, in
request order. -/
def resolvedNames (tools : List ToolSpec) (calls : List ToolCall) : List String :=
  (calls.filter fun c => (find_tool tools c.name).isSome).map ToolCall.name

/-- Whether a string begins with the "Error calculating:" text that calculate
prepends to every caught exception. -/
def errPrefixed (s : String) : Bool :=
  "Error calculating:".data.isPrefixOf s.data

/-! ## Helper lemmas -/

/-- Observation: done events pass through a leading token event unchanged. -/
theorem doneMessages_token (c a : String) (l : List SseEvent) :
    doneMessages (SseEvent.token c a :: l) = doneMessages l := rfl

/-- Observation: done events pass through a leading tool_start event. -/
theorem doneMessages_toolStart (t a : String) (l : List SseEvent) :
    doneMessages (SseEvent.toolStart t a :: l) = doneMessages l := rfl

/-- Observation: done events pass through a leading tool_end event. -/
theorem doneMessages_toolEnd (t r : String) (l : List SseEvent) :
    doneMessages (SseEvent.toolEnd t r :: l) = doneMessages l := rfl

/-- On an error-free chunk stream the single done event carries the buffer
prefix followed by the concatenation of every token content. -/
theorem streamLoop_doneMessages (sid : String) (chunks : List Chunk) :
    ∀ buf : String, (∀ c ∈ chunks, c.isError = false) →
      doneMessages (streamLoop sid buf chunks) = [buf ++ get_response chunks] := by
  induction chunks with
  | nil => intro buf _; simp [streamLoop, doneMessages, get_response]
  | cons c rest ih =>
    intro buf h
    have hrest : ∀ x ∈ rest, x.isError = false := fun x hx => h x (List.mem_cons_of_mem c hx)
    cases c with
    | token s =>
      show doneMessages (SseEvent.token s (buf ++ s) :: streamLoop sid (buf ++ s) rest) = _
      rw [doneMessages_token, ih (buf ++ s) hrest]
      simp [get_response, String.append_assoc]
    | toolStart t a =>
      show doneMessages (SseEvent.toolStart t a :: streamLoop sid buf rest) = _
      rw [doneMessages_toolStart, ih buf hrest]
      simp [get_response]
    | toolEnd t r =>
      show doneMessages (SseEvent.toolEnd t r :: streamLoop sid buf rest) = _
      rw [doneMessages_toolEnd, ih buf hrest]
      simp [get_response]
    | nodeComplete =>
      show doneMessages (streamLoop sid buf rest) = _
      rw [ih buf hrest]
      simp [get_response]
    | error m =>
      have := h (Chunk.error m) (List.mem_cons_self _ _)
      simp [Chunk.isError] at this

/-- should_continue answers tools only below the step bound. -/
theorem should_continue_tools_lt (current_step max_steps : Nat) (tc : List ToolCall)
    (h : should_continue current_step max_steps tc = Route.tools) :
    current_step < max_steps := by
  unfold should_continue at h
  split at h
  · simp at h
  · omega

/-- Fuelled bound for the agent loop: from any counter below the bound the
loop executes at most the remaining budget of model steps. -/
theorem agentLoop_le_aux (oracle : Nat → ModelResponse) (max_steps : Nat) :
    ∀ d current, current < max_steps → max_steps - current ≤ d →
      agentLoop oracle max_steps current ≤ max_steps - current := by
  intro d
  induction d with
  | zero => intro current hc hd; omega
  | succ d ih =>
    intro current hc hd
    rw [agentLoop]
    split
    case _ heq =>
      have hlt := should_continue_tools_lt _ _ _ heq
      have := ih (current + 1) hlt (by omega)
      omega
    case _ heq => omega

/-- The agent loop executes at most max_steps - current model steps. -/
theorem agentLoop_le (oracle : Nat → ModelResponse) (max_steps current : Nat)
    (h : current < max_steps) :
    agentLoop oracle max_steps current ≤ max_steps - current :=
  agentLoop_le_aux oracle max_steps (max_steps - current) current h (Nat.le_refl _)

/-- add_messages appends a message whose id is new. -/
theorem addOneMessage_fresh (l : List Msg) (m : Msg)
    (h : ∀ x ∈ l, x.id ≠ m.id) : addOneMessage l m = l ++ [m] := by
  unfold addOneMessage
  have : l.any (fun x => x.id == m.id) = false := by
    rw [List.any_eq_false]
    intro x hx
    simpa using h x hx
  rw [this]
  simp

/-- add_messages on a batch of messages with fresh, pairwise distinct ids is a
plain append. -/
theorem add_messages_of_fresh (r : List Msg) :
    ∀ l : List Msg, (∀ m ∈ r, ∀ x ∈ l, x.id ≠ m.id) → (r.map Msg.id).Nodup →
      add_messages l r = l ++ r := by
  induction r with
  | nil => intro l _ _; simp [add_messages]
  | cons m rest ih =>
    intro l hfresh hnodup
    rw [List.map_cons] at hnodup
    obtain ⟨hnotmem, hrestnodup⟩ := List.nodup_cons.mp hnodup
    have h1 : addOneMessage l m = l ++ [m] :=
      addOneMessage_fresh l m (hfresh m (List.mem_cons_self _ _))
    have hfresh2 : ∀ x ∈ rest, ∀ y ∈ l ++ [m], y.id ≠ x.id := by
      intro x hx y hy
      rcases List.mem_append.mp hy with hyl | hym
      · exact hfresh x (List.mem_cons_of_mem _ hx) y hyl
      · have hym2 : y = m := by simpa using hym
        subst hym2
        intro hcontr
        exact hnotmem (hcontr ▸ List.mem_map_of_mem Msg.id hx)
    calc add_messages l (m :: rest)
        = add_messages (addOneMessage l m) rest := rfl
      _ = add_messages (l ++ [m]) rest := by rw [h1]
      _ = (l ++ [m]) ++ rest := ih (l ++ [m]) (fun x hx y hy => hfresh2 x hx y hy) hrestnodup
      _ = l ++ m :: rest := by simp

/-- Folding add_messages over a turn's node updates with fresh ids appends
them in execution order. -/
theorem foldl_add_messages (updates : List (List Msg)) :
    ∀ base : List Msg,
      (∀ m ∈ updates.flatten, ∀ x ∈ base, x.id ≠ m.id) →
      (updates.flatten.map Msg.id).Nodup →
      updates.foldl add_messages base = base ++ updates.flatten := by
  induction updates with
  | nil => intro base _ _; simp
  | cons u rest ih =>
    intro base hfresh hnodup
    have hflat : (u :: rest).flatten = u ++ rest.flatten := rfl
    rw [hflat] at hfresh hnodup
    rw [List.map_append] at hnodup
    obtain ⟨hu, hrest, hdisj⟩ := List.nodup_append.mp hnodup
    have h1 : add_messages base u = base ++ u :=
      add_messages_of_fresh u base
        (fun m hm x hx => hfresh m (List.mem_append_left _ hm) x hx) hu
    have hfresh2 : ∀ m ∈ rest.flatten, ∀ x ∈ base ++ u, x.id ≠ m.id := by
      intro m hm x hx
      rcases List.mem_append.mp hx with hxb | hxu
      · exact hfresh m (List.mem_append_right _ hm) x hxb
      · intro hcontr
        exact hdisj (hcontr ▸ List.mem_map_of_mem Msg.id hxu) (List.mem_map_of_mem Msg.id hm)
    calc (u :: rest).foldl add_messages base
        = rest.foldl add_messages (add_messages base u) := rfl
      _ = rest.foldl add_messages (base ++ u) := by rw [h1]
      _ = (base ++ u) ++ rest.flatten := ih (base ++ u) hfresh2 hrest
      _ = base ++ (u :: rest).flatten := by simp

/-- A string below the 1-character minimum is empty, hence strips to empty. -/
theorem pyStrip_of_short (s : String) (h : s.length < 1) : pyStrip s = "" := by
  cases s with
  | mk data =>
    cases data with
    | nil => rfl
    | cons a l =>
      exfalso
      simp [String.length] at h

/-- Anything calculate builds from the caught-exception branch carries the
"Error calculating:" marker. -/
theorem errPrefixed_append (t : String) :
    errPrefixed ("Error calculating: " ++ t) = true := by
  cases t with
  | mk data => rfl

/-- eval_expr only returns a value on trees made of the allowed constructs:
every Name, None constant, Mod, FloorDiv or UAdd node makes it raise. -/
theorem evalOk_allowed (ast : PyExpr) :
    ∀ v, evalExpr ast = Except.ok v → allowedConstructs ast = true := by
  induction ast with
  | const c =>
    intro v h
    cases c <;> simp [evalExpr, constVal, allowedConstructs] at h ⊢
  | name s => intro v h; simp [evalExpr] at h
  | binop op l r ihl ihr =>
    intro v h
    cases op with
    | mod => simp [evalExpr] at h
    | floordiv => simp [evalExpr] at h
    | add =>
      cases hl : evalExpr l with
      | error e => simp [evalExpr, hl] at h
      | ok a =>
        cases hr : evalExpr r with
        | error e => simp [evalExpr, hl, hr] at h
        | ok b => simp [allowedConstructs, ihl a hl, ihr b hr]
    | sub =>
      cases hl : evalExpr l with
      | error e => simp [evalExpr, hl] at h
      | ok a =>
        cases hr : evalExpr r with
        | error e => simp [evalExpr, hl, hr] at h
        | ok b => simp [allowedConstructs, ihl a hl, ihr b hr]
    | mult =>
      cases hl : evalExpr l with
      | error e => simp [evalExpr, hl] at h
      | ok a =>
        cases hr : evalExpr r with
        | error e => simp [evalExpr, hl, hr] at h
        | ok b => simp [allowedConstructs, ihl a hl, ihr b hr]
    | div =>
      cases hl : evalExpr l with
      | error e => simp [evalExpr, hl] at h
      | ok a =>
        cases hr : evalExpr r with
        | error e => simp [evalExpr, hl, hr] at h
        | ok b => simp [allowedConstructs, ihl a hl, ihr b hr]
    | pow =>
      cases hl : evalExpr l with
      | error e => simp [evalExpr, hl] at h
      | ok a =>
        cases hr : evalExpr r with
        | error e => simp [evalExpr, hl, hr] at h
        | ok b => simp [allowedConstructs, ihl a hl, ihr b hr]
  | unaryop op e ihe =>
    intro v h
    cases op with
    | uadd => simp [evalExpr] at h
    | usub =>
      cases he : evalExpr e with
      | error msg => simp [evalExpr, he] at h
      | ok a => simp [allowedConstructs, ihe a he]

/-- A tree containing a disallowed construct always evaluates to an error. -/
theorem notAllowed_error (ast : PyExpr) (h : allowedConstructs ast = false) :
    ∃ msg, evalExpr ast = Except.error msg := by
  cases hev : evalExpr ast with
  | error msg => exact ⟨msg, rfl⟩
  | ok v =>
    have := evalOk_allowed ast v hev
    rw [this] at h
    exact absurd h (by simp)

/-! ## Claims -/

/-- C1: the claim says every turn's external event sequence contains exactly
one terminal event — done xor error — always last, with nothing after an
error. The code violates it: on an error chunk stream_chat_response forwards
the error event and breaks out of the loop, but execution then falls through
to the unconditional done yield, so the error event is followed by a done
event and the stream carries two terminal events. Evaluated here at the
failing input, a turn whose internal stream reports a model gateway failure. -/
theorem c1_error_then_done :
    stream_chat_response [Chunk.error "provider unavailable"] "sid" =
        [SseEvent.error "provider unavailable", SseEvent.done "" "sid"]
      ∧ ((stream_chat_response [Chunk.error "provider unavailable"] "sid").filter
          SseEvent.isTerminal).length = 2 := ⟨rfl, rfl⟩

/-- C2: the claim says every model step that requests N tool calls yields
exactly one ToolResult per request (by call id) and N tool_start / N tool_end
events, including when the requested name is not in the registry. The code
violates it: a call whose name _find_tool cannot resolve is silently skipped —
no ToolMessage and no dispatch events — so one request yields zero results,
while a resolvable sibling in the same step still yields its one result. -/
theorem c2_unknown_tool_missing_result :
    tools_node nativeTools [⟨"get_stock", "AAPL", "call_1"⟩] = []
      ∧ tools_node_trace nativeTools [⟨"get_stock", "AAPL", "call_1"⟩] = []
      ∧ tools_node nativeTools
          [⟨"calculator", "1 + 1", "call_a"⟩, ⟨"get_stock", "AAPL", "call_b"⟩] =
          [⟨"1 + 1 = 2", "call_a"⟩] := ⟨rfl, rfl, rfl⟩

/-- C3: the claim says tool dispatch never raises and EVERY tool-level failure
— unknown tool, invalid arguments, timeout, internal exception — is captured
as a ToolResult failure message appended to history. The code captures the
three exception classes of a found tool (shown by the first three messages,
one per call id) but appends nothing at all for an unknown tool name (the
ghost call id4 has no message), violating the unknown-tool part of the claim. -/
theorem c3_unknown_tool_failure_not_captured :
    tools_node
        [⟨"boom", fun _ => ToolOutcome.otherError "kaboom"⟩,
         ⟨"slow", fun _ => ToolOutcome.timeoutError "deadline"⟩,
         ⟨"picky", fun _ => ToolOutcome.valueError "bad field"⟩]
        [⟨"boom", "", "id1"⟩, ⟨"slow", "", "id2"⟩, ⟨"picky", "", "id3"⟩,
         ⟨"ghost", "", "id4"⟩] =
      [⟨"Tool error: kaboom", "id1"⟩,
       ⟨"Tool execution timed out. Please try again.", "id2"⟩,
       ⟨"Invalid input: bad field", "id3"⟩] := rfl

/-- C4 counterexample: at a turn with token content in two model steps the
done event carries "ab" — the concatenation of ALL token content of the turn
— while the final model step's tokens concatenate to "b" alone, so the
claim's "not tokens from earlier model steps" is false on the code. -/
theorem c4_counterexample :
    doneMessages (stream_chat_response c4Chunks "sid") = ["ab"]
      ∧ finalModelStepConcat c4Chunks = "b"
      ∧ ("ab" : String) ≠ "b" := ⟨rfl, rfl, by decide⟩

/-- C4 amended: for every turn whose internal stream reports no fatal error,
the single done event carries the concatenation of all token content emitted
during the whole turn (all model steps), and the non-streaming variant
returns that same string. -/
theorem c4_done_carries_all_turn_tokens (chunks : List Chunk) (sid : String)
    (h : ∀ c ∈ chunks, c.isError = false) :
    doneMessages (stream_chat_response chunks sid) = [get_response chunks] := by
  have := streamLoop_doneMessages sid chunks "" h
  simpa [stream_chat_response] using this

/-- C4 witness: the amended statement at the concrete two-step turn. -/
theorem c4_witness :
    doneMessages (stream_chat_response c4Chunks "sid") = [get_response c4Chunks] :=
  c4_done_carries_all_turn_tokens c4Chunks "sid" (by decide)

/-- C5: for every turn the loop performs at most max_steps model steps
(whenever the configured bound is at least one; the graph always enters the
agent node once): the step counter reaching max_steps makes should_continue
answer end even when tool calls are pending — a forced normal stop, not an
error — and the default bound from settings.max_iterations is 10. -/
theorem c5_loop_bounded_by_max_steps (oracle : Nat → ModelResponse) (max_steps : Nat)
    (h : 1 ≤ max_steps) (pending : List ToolCall) :
    loopModelSteps oracle max_steps ≤ max_steps
      ∧ should_continue max_steps max_steps pending = Route.endRun
      ∧ max_iterations_default = 10 := by
  refine ⟨?_, ?_, rfl⟩
  · have := agentLoop_le oracle max_steps 0 (by omega)
    simpa [loopModelSteps] using this
  · unfold should_continue
    simp

/-- C5 witness: the bound at max_steps = 10 with a model that requests a tool
call on every step. -/
theorem c5_witness :
    loopModelSteps (fun _ => ⟨"ok", [⟨"calculator", "1 + 1", "c1"⟩]⟩) 10 ≤ 10
      ∧ should_continue 10 10 [⟨"calculator", "1 + 1", "c1"⟩] = Route.endRun
      ∧ max_iterations_default = 10 :=
  c5_loop_bounded_by_max_steps (fun _ => ⟨"ok", [⟨"calculator", "1 + 1", "c1"⟩]⟩) 10
    (by decide) [⟨"calculator", "1 + 1", "c1"⟩]

/-- C6: a turn whose new messages carry fresh, pairwise distinct ids (the
libraries assign fresh uuids) leaves the session history equal to the prior
history, then the new human message, then the AI and tool messages produced
during the turn in order; prior entries are untouched and the length strictly
grows. -/
theorem c6_history_append_only (prior : List Msg) (hm : Msg) (updates : List (List Msg))
    (hfresh : ∀ m ∈ hm :: updates.flatten, ∀ x ∈ prior, x.id ≠ m.id)
    (hnodup : ((hm :: updates.flatten).map Msg.id).Nodup) :
    turnHistory prior hm updates = prior ++ hm :: updates.flatten
      ∧ prior.length < (turnHistory prior hm updates).length := by
  rw [List.map_cons] at hnodup
  obtain ⟨hnotin, hrest⟩ := List.nodup_cons.mp hnodup
  have h1 : add_messages prior [hm] = prior ++ [hm] := by
    apply add_messages_of_fresh
    · intro m hmem x hx
      have hm2 : m = hm := by simpa using hmem
      subst hm2
      exact hfresh m (List.mem_cons_self _ _) x hx
    · simp
  have h2 : updates.foldl add_messages (prior ++ [hm]) = (prior ++ [hm]) ++ updates.flatten := by
    apply foldl_add_messages
    · intro m hmem x hx
      rcases List.mem_append.mp hx with hxp | hxh
      · exact hfresh m (List.mem_cons_of_mem _ hmem) x hxp
      · have hx2 : x = hm := by simpa using hxh
        subst hx2
        intro hcontr
        exact hnotin (hcontr ▸ List.mem_map_of_mem Msg.id hmem)
    · exact hrest
  have heq : turnHistory prior hm updates = prior ++ hm :: updates.flatten := by
    unfold turnHistory
    rw [h1, h2]
    simp
  refine ⟨heq, ?_⟩
  rw [heq]
  simp

/-- C6 witness: a concrete turn — one prior entry, the new human message, an
AI tool request, its tool result and the final AI answer — appends in order. -/
theorem c6_witness :
    turnHistory [⟨"p1", MsgKind.human, "earlier"⟩] ⟨"h1", MsgKind.human, "hi"⟩
        [[⟨"a1", MsgKind.ai, "calling"⟩], [⟨"t1", MsgKind.tool, "result"⟩],
         [⟨"a2", MsgKind.ai, "answer"⟩]] =
      [⟨"p1", MsgKind.human, "earlier"⟩, ⟨"h1", MsgKind.human, "hi"⟩,
       ⟨"a1", MsgKind.ai, "calling"⟩, ⟨"t1", MsgKind.tool, "result"⟩,
       ⟨"a2", MsgKind.ai, "answer"⟩]
      ∧ ([⟨"p1", MsgKind.human, "earlier"⟩] : List Msg).length <
        (turnHistory [⟨"p1", MsgKind.human, "earlier"⟩] ⟨"h1", MsgKind.human, "hi"⟩
          [[⟨"a1", MsgKind.ai, "calling"⟩], [⟨"t1", MsgKind.tool, "result"⟩],
           [⟨"a2", MsgKind.ai, "answer"⟩]]).length :=
  c6_history_append_only [⟨"p1", MsgKind.human, "earlier"⟩] ⟨"h1", MsgKind.human, "hi"⟩
    [[⟨"a1", MsgKind.ai, "calling"⟩], [⟨"t1", MsgKind.tool, "result"⟩],
     [⟨"a2", MsgKind.ai, "answer"⟩]] (by decide) (by decide)

/-- C7 counterexample: at a model step requesting two resolvable tools the
source's trace runs the first dispatch to completion before the second starts
(start, end, start, end), while the spec's concurrent dispatch emits both
start events before any completion (start, start, end, end); the traces
differ, so the claim of parallel dispatch is false on the code. -/
theorem c7_counterexample :
    tools_node_trace nativeTools c7Calls =
        [ToolEvent.start "weather", ToolEvent.finish "weather",
         ToolEvent.start "calculator", ToolEvent.finish "calculator"]
      ∧ specParallelDispatchTrace nativeTools c7Calls =
        [ToolEvent.start "weather", ToolEvent.start "calculator",
         ToolEvent.finish "weather", ToolEvent.finish "calculator"]
      ∧ tools_node_trace nativeTools c7Calls ≠ specParallelDispatchTrace nativeTools c7Calls :=
  ⟨rfl, rfl, by decide⟩

/-- C7 amended: the tool calls of one model response are dispatched
sequentially in request order, each awaited to completion before the next
dispatch begins (the trace is a chain of adjacent start/end pairs with no
overlap), and every resolvable call is both started and finished — in request
order — before the node returns control to the model step. -/
theorem c7_sequential_dispatch (tools : List ToolSpec) (calls : List ToolCall) :
    sequentialTrace (tools_node_trace tools calls) = true
      ∧ traceStarts (tools_node_trace tools calls) = resolvedNames tools calls
      ∧ traceFinishes (tools_node_trace tools calls) = resolvedNames tools calls := by
  induction calls with
  | nil => exact ⟨rfl, rfl, rfl⟩
  | cons c rest ih =>
    obtain ⟨ih1, ih2, ih3⟩ := ih
    cases hf : find_tool tools c.name with
    | none =>
      refine ⟨?_, ?_, ?_⟩ <;>
        simp [tools_node_trace, sequentialTrace, traceStarts, traceFinishes,
          resolvedNames, hf, List.filter_cons] at ih1 ih2 ih3 ⊢ <;>
        first
          | exact ih1
          | exact ih2
          | exact ih3
    | some t =>
      refine ⟨?_, ?_, ?_⟩ <;>
        simp [tools_node_trace, sequentialTrace, traceStarts, traceFinishes,
          resolvedNames, hf, List.filter_cons] at ih1 ih2 ih3 ⊢ <;>
        first
          | exact ih1
          | exact ih2
          | exact ih3

/-- C8: a chat request message is rejected by validation — before the loop
runs — exactly when it is empty or whitespace-only after stripping or longer
than 8000 characters, and a missing session id is replaced by the freshly
generated one. -/
theorem c8_validation_rejects_before_loop (s generated : String) :
    (validateChatMessage s = none ↔ (pyStrip s = "" ∨ 8000 < s.length))
      ∧ resolveSessionId none generated = generated := by
  refine ⟨⟨?_, ?_⟩, rfl⟩
  · intro h
    unfold validateChatMessage at h
    split_ifs at h with h1 h2 h3
    · exact Or.inl (pyStrip_of_short s h1)
    · exact Or.inr (by omega)
    · exact Or.inl h3
  · intro h
    unfold validateChatMessage
    split_ifs with h1 h2 h3
    · rfl
    · rfl
    · rfl
    · exfalso
      rcases h with h | h
      · exact h3 h
      · omega

/-- C8 witness: the whitespace-only and empty messages are rejected and an
absent session id resolves to the generated one. -/
theorem c8_witness :
    validateChatMessage "   " = none ∧ validateChatMessage "" = none ∧
      resolveSessionId none "generated-uuid" = "generated-uuid" :=
  ⟨(c8_validation_rejects_before_loop "   " "generated-uuid").1.mpr (Or.inl (by decide)),
   (c8_validation_rejects_before_loop "" "generated-uuid").1.mpr (Or.inl (by decide)),
   (c8_validation_rejects_before_loop "" "generated-uuid").2⟩

/-- C9: the calculator on "123 * 456" returns "123 * 456 = 56088", and in
general any expression that parses and evaluates to a value is answered as
the expression text, an equals sign, and the printed value. -/
theorem c9_calculator_result :
    calculate "123 * 456" = "123 * 456 = 56088"
      ∧ ∀ (s : String) (ast : PyExpr) (v : PyVal),
          py_parse s = some ast → evalExpr ast = Except.ok v →
          calculate s = s ++ " = " ++ renderVal v := by
  refine ⟨rfl, ?_⟩
  intro s ast v hp he
  simp [calculate, hp, he]

/-- C9 witness: the general shape at the concrete input "2 + 3". -/
theorem c9_witness : calculate "2 + 3" = "2 + 3 = 5" := by
  have h := c9_calculator_result.2 "2 + 3"
    (PyExpr.binop PyOp.add (PyExpr.const (PyConst.intC 2)) (PyExpr.const (PyConst.intC 3)))
    (PyVal.intV 5) rfl rfl
  simpa using h

/-- C10: for every input string the calculator returns a string of one of two
shapes — an answer "input = value" or a message beginning
"Error calculating:" — and the error shape is returned whenever the input
fails to parse or its tree contains any construct outside numeric constants,
the five table operators and unary negation (Name nodes, calls modeled as
parse failures, None, Mod, FloorDiv, UAdd); booleans pass Python's
isinstance int check and so count as numeric constants. Totality of the
embedding reflects that the Python function catches every exception. -/
theorem c10_calculator_safety (s : String) :
    (py_parse s = none → errPrefixed (calculate s) = true)
      ∧ (∀ ast, py_parse s = some ast → allowedConstructs ast = false →
          errPrefixed (calculate s) = true)
      ∧ (errPrefixed (calculate s) = true
          ∨ ∃ v, calculate s = s ++ " = " ++ renderVal v) := by
  refine ⟨?_, ?_, ?_⟩
  · intro h
    have heq : calculate s = "Error calculating: invalid syntax" := by simp [calculate, h]
    rw [heq]
    rfl
  · intro ast hp hna
    obtain ⟨msg, hmsg⟩ := notAllowed_error ast hna
    have heq : calculate s = "Error calculating: " ++ msg := by simp [calculate, hp, hmsg]
    rw [heq]
    exact errPrefixed_append msg
  · cases hp : py_parse s with
    | none =>
      left
      have heq : calculate s = "Error calculating: invalid syntax" := by simp [calculate, hp]
      rw [heq]
      rfl
    | some ast =>
      cases hev : evalExpr ast with
      | error msg =>
        left
        have heq : calculate s = "Error calculating: " ++ msg := by simp [calculate, hp, hev]
        rw [heq]
        exact errPrefixed_append msg
      | ok v =>
        right
        exact ⟨v, by simp [calculate, hp, hev]⟩

/-- C10 witness: a call-shaped input and a Mod operator both produce the
error shape. -/
theorem c10_witness :
    errPrefixed (calculate "weather(5)") = true
      ∧ errPrefixed (calculate "5 % 2") = true :=
  ⟨(c10_calculator_safety "weather(5)").1 rfl,
   (c10_calculator_safety "5 % 2").2.1
     (PyExpr.binop PyOp.mod (PyExpr.const (PyConst.intC 5)) (PyExpr.const (PyConst.intC 2)))
     rfl rfl⟩

end DylanAssistant
